import Mathlib

/-!
Verification development for the `raster_tools` focal module
(`raster_tools/focal.py`): a shallow embedding of the footprint builder,
the reducer library, the tiled focal/correlation kernels and the
raster-level orchestrators, together with theorems checking the design
spec's claims against them.

Modelling conventions:
* IEEE floating values are embedded as `Option ℚ`: `none` models NaN,
  `some q` a finite value.  All numpy "nan-aware" operations translate to
  filtering out `none`.
* 2-D arrays are embedded either as `List (List _)` (footprint windows,
  weight kernels — concrete data with decidable equality) or as a
  `Mat` structure (a size pair plus an index function) for tile payloads.
* `uint16` counters in the numba reducers are embedded as `ℕ`; the claims
  under check only concern samples far below the 2^16 wrap-around.
-/

set_option maxRecDepth 8000

namespace RasterTools

/-- A NaN-able floating-point value: `none` is NaN, `some q` a finite value. -/
abbrev FVal := Option ℚ

/-! ## Reducer library (`_agg_nan_*` in focal.py)

Each numba reducer receives the flattened kernel-values buffer and skips
NaN entries.  The embeddings filter the `none` entries first, mirroring
the explicit `np.isnan` guards / numpy `nan*` semantics. -/

/-- Embeds `_agg_nan_min` (`np.nanmin`): minimum of the non-NaN values,
NaN when the filtered sample is empty. -/
def agg_nan_min (x : List FVal) : FVal :=
  (x.filterMap id).min?

/-- Embeds `_agg_nan_max` (`np.nanmax`): maximum of the non-NaN values,
NaN when the filtered sample is empty. -/
def agg_nan_max (x : List FVal) : FVal :=
  (x.filterMap id).max?

/-- Embeds `_agg_nan_mean` (`np.nanmean`): mean of the non-NaN values,
NaN when the filtered sample is empty. -/
def agg_nan_mean (x : List FVal) : FVal :=
  let v := x.filterMap id
  if v.isEmpty then none else some (v.sum / (v.length : ℚ))

/-- Embeds `_agg_nan_median` (`np.nanmedian`): sort the non-NaN values
ascending; for odd count take the middle element, for even count the mean
of the two middle elements; NaN when the filtered sample is empty. -/
def agg_nan_median (x : List FVal) : FVal :=
  let v := (x.filterMap id).insertionSort (· ≤ ·)
  let n := v.length
  if v.isEmpty then none
  else if n % 2 = 1 then some (v.getD (n / 2) 0)
  else some ((v.getD (n / 2 - 1) 0 + v.getD (n / 2) 0) / 2)

/-- Embeds `_agg_nan_sum` (`np.nansum`): NaN entries are treated as zero,
so the empty filtered sample sums to `0`, not NaN. -/
def agg_nan_sum (x : List FVal) : FVal :=
  some (x.filterMap id).sum

/-- Embeds `_agg_nan_var` (`np.nanvar`, population variance, ddof 0):
mean squared deviation of the non-NaN values, NaN when empty. -/
def agg_nan_var (x : List FVal) : FVal :=
  let v := x.filterMap id
  if v.isEmpty then none
  else
    let m := v.sum / (v.length : ℚ)
    some ((v.map (fun t => (t - m) ^ 2)).sum / (v.length : ℚ))

/-- Embeds `_agg_nan_std` (`np.nanstd` = square root of `np.nanvar`).
The square root of a rational is irrational in general, so the embedding
takes the (total, nonnegative-real) square-root map as a parameter; the
NaN structure — which is all the spec claims concern — is exact. -/
def agg_nan_std (sqrt : ℚ → ℚ) (x : List FVal) : FVal :=
  (agg_nan_var x).map sqrt

/-- Embeds `_agg_nan_unique`: the number of distinct non-NaN values,
NaN when there are none (`if len(s): return len(s); return np.nan`). -/
def agg_nan_unique (x : List FVal) : FVal :=
  let s := (x.filterMap id).dedup
  if s.isEmpty then none else some (s.length : ℚ)

/-- Embeds `np.argmax`-style selection over a nonempty list presented as
head plus tail: fold keeping the first element attaining the maximal key
(a later element replaces the accumulator only on a strictly greater
key, exactly as `np.argmax` returns the first maximising index). -/
def argmax_first (key : ℚ → ℕ) (x : ℚ) (xs : List ℚ) : ℚ :=
  xs.foldl (fun b a => if key b < key a then a else b) x

/-- The uint16 modulus: `_agg_nan_mode` stores its compaction index `j`
and the occurrence counters (`c[v]`, the `cnts` array) in uint16, which
wraps at this value. -/
def U16 : ℕ := 65536

/-- Embeds the in-place compaction `x[j] = v; j += one` of
`_agg_nan_mode`: the write index `j` is uint16, so the `i`-th non-NaN
value lands at buffer position `i % 2^16` (each position keeps the last
value written there), and `vals = x[:j]` keeps the first
`len % 2^16` positions. -/
def compact_u16 (l : List ℚ) : List ℚ :=
  (List.range (l.length % U16)).map
    (fun p => l.getD (l.length / U16 * U16 + p) 0)

/-- Embeds the uint16 occurrence counter of `_agg_nan_mode`: the true
occurrence count reduced modulo 2^16. -/
def count_u16 (l : List ℚ) (t : ℚ) : ℕ := l.count t % U16

/-- Embeds `_agg_nan_mode`: compact the non-NaN values (keeping
multiplicity, through the uint16 write index), count occurrences per
value in uint16, sort the compacted values ascending and return the
entry at the first index of maximal count. -/
def agg_nan_mode (x : List FVal) : FVal :=
  let vals := x.filterMap id
  match (compact_u16 vals).insertionSort (· ≤ ·) with
  | [] => none
  | v :: rest => some (argmax_first (count_u16 vals) v rest)

/-- A null-filtered sample exceeding the uint16 range: 65537 copies of
`1` followed by two copies of `2`, reachable through a rectangle
footprint such as `get_focal_window(257, 256)` (65792 cells). -/
def c4_big_sample : List FVal :=
  List.replicate 65537 (some 1) ++ [some 2, some 2]

/-- Embeds `_agg_nan_entropy`: `-Σ p·ln p` over the empirical frequency
distribution of the distinct non-NaN values; NaN when the sample is
empty.  `np.log` is irrational in general so the logarithm map is a
parameter; the NaN structure is exact. -/
def agg_nan_entropy (log : ℚ → ℚ) (x : List FVal) : FVal :=
  let v := x.filterMap id
  if v.isEmpty then none
  else
    let n : ℚ := v.length
    some (-((v.dedup.map (fun t => (v.count t / n) * log (v.count t / n))).sum))

/-- Embeds `_agg_nan_asm`: `Σ p²` over the empirical frequency
distribution of the distinct non-NaN values; NaN when the sample is
empty. -/
def agg_nan_asm (x : List FVal) : FVal :=
  let v := x.filterMap id
  if v.isEmpty then none
  else
    let n : ℚ := v.length
    some ((v.dedup.map (fun t => (v.count t / n) ^ 2)).sum)

/-! ## Footprint builder (`get_focal_window`)

Windows are embedded as `List (List Bool)` (row-major, like the numpy
boolean arrays the source builds). -/

/-- A Python scalar argument.  The validation in `get_focal_window`
distinguishes integer-typed values (`is_int`) from other numbers, so the
embedding keeps the type tag. -/
inductive PyNum
  | intV (n : ℤ)
  | floatV (q : ℚ)
deriving DecidableEq

/-- Numeric value of the argument, used by the order and sign checks. -/
def PyNum.toRat : PyNum → ℚ
  | .intV n => (n : ℚ)
  | .floatV q => q

/-- Modelled from the spec (`_utils.is_int` is not under src/):
"reject non-integer ... values" — accepts exactly integer-typed
arguments. -/
def is_int : PyNum → Bool
  | .intV _ => true
  | .floatV _ => false

/-- Natural-number view of a validated (integer, positive) argument. -/
def PyNum.asNat : PyNum → ℕ
  | .intV n => n.toNat
  | .floatV q => q.num.toNat

/-- Embeds the comparison `np.sqrt d <= c` for naturals `d`, `c`: IEEE
square root is correctly rounded, hence monotone and exact on perfect
squares, so the floating comparison agrees with `d ≤ c²`. -/
def sqrt_le (d c : ℕ) : Bool := decide (d ≤ c * c)

/-- Squared Euclidean distance from `(x, y)` to `(c, c)`. -/
def dist2 (x y c : ℕ) : ℕ := (((x : ℤ) - c) ^ 2 + ((y : ℤ) - c) ^ 2).toNat

/-- Embeds the circle branch of `get_focal_window`: a square grid of
side `(rvalue-1)*2 + 1`, with cell `(x, y)` true iff
`np.sqrt((x-c)² + (y-c)²) <= c` where `c = (width-1)//2`. -/
def circle_window (rvalue : ℕ) : List (List Bool) :=
  let width := (rvalue - 1) * 2 + 1
  let c := (width - 1) / 2
  (List.range width).map fun x =>
    (List.range width).map fun y => sqrt_le (dist2 x y c) c

/-- Embeds `np.pad(w, p, mode="constant", constant_values=False)`:
symmetric false-padding by `p` cells on every side. -/
def pad_window (w : List (List Bool)) (p : ℕ) : List (List Bool) :=
  let rows := w.length
  let cols := (w.getD 0 []).length
  (List.range (rows + 2 * p)).map fun x =>
    (List.range (cols + 2 * p)).map fun y =>
      decide (p ≤ x) && decide (p ≤ y) &&
        ((w.getD (x - p) []).getD (y - p) false)

/-- Embeds `w2[w1p] = False`: clear from `w2` every cell that is true in
the same-shape boolean index `w1p`. -/
def clear_cells (w2 w1p : List (List Bool)) : List (List Bool) :=
  (List.range w2.length).map fun x =>
    (List.range ((w2.getD x []).length)).map fun y =>
      (w2.getD x []).getD y false && !((w1p.getD x []).getD y false)

/-- Embeds `np.ones((width, height), dtype=bool)`: the rectangle branch. -/
def rect_window (width height : ℕ) : List (List Bool) :=
  List.replicate width (List.replicate height true)

/-- The `width_or_radius` argument: a scalar, or a length-two sequence
(radius pair).  Sequences of other lengths are rejected by the source
before any other validation and are outside the claims under check. -/
inductive FocalSpec
  | single (v : PyNum)
  | pair (a b : PyNum)
deriving DecidableEq

/-- The flattened value list the per-value validation loop runs over. -/
def FocalSpec.values : FocalSpec → List PyNum
  | .single v => [v]
  | .pair a b => [a, b]

/-- Embeds the per-value validation loop of `get_focal_window`:
`TypeError` for a non-integer value, `ValueError` for a value ≤ 0. -/
def check_values : List PyNum → Except String Unit
  | [] => .ok ()
  | v :: rest =>
    if is_int v then
      if v.toRat ≤ 0 then
        .error "Window width or radius values must be greater than 0."
      else check_values rest
    else .error "width_or_radius values must be integers"

/-- Embeds `get_focal_window`: the validation chain (pair ordering,
per-value checks, height checks) followed by the circle / annulus /
rectangle construction. -/
def get_focal_window (width_or_radius : FocalSpec) (height : Option PyNum) :
    Except String (List (List Bool)) :=
  let step1 : Except String Unit :=
    match width_or_radius with
    | .pair a b =>
        if b.toRat ≤ a.toRat then
          .error "First radius value must be less than or equal to the second."
        else .ok ()
    | .single _ => .ok ()
  match step1 with
  | .error e => .error e
  | .ok _ =>
    match check_values width_or_radius.values with
    | .error e => .error e
    | .ok _ =>
      let step3 : Except String Unit :=
        match height, width_or_radius with
        | some _, .pair _ _ =>
            .error "height must be None if width_or_radius indicates annulus"
        | some h, .single _ =>
            if is_int h then
              if h.toRat ≤ 0 then
                .error "Window height must be greater than 0."
              else .ok ()
            else .error "height must be an integer or None"
        | none, _ => .ok ()
      match step3 with
      | .error e => .error e
      | .ok _ =>
        match height, width_or_radius with
        | none, .single v => .ok (circle_window v.asNat)
        | none, .pair a b =>
            let w1 := circle_window a.asNat
            let w2 := circle_window b.asNat
            let padding := (w2.length - w1.length) / 2
            .ok (clear_cells w2 (pad_window w1 padding))
        | some h, .single w => .ok (rect_window w.asNat h.asNat)
        | some _, .pair _ _ =>
            .error "height must be None if width_or_radius indicates annulus"

/-- The claim's notion of a well-formed footprint spec, written from the
spec's words (for comparison with `get_focal_window`): integer values
greater than zero, a strictly increasing radius pair, and no radius pair
together with an explicit height. -/
def well_formed_spec : FocalSpec → Option PyNum → Prop
  | .single v, none => is_int v = true ∧ 0 < v.toRat
  | .single v, some h =>
      (is_int v = true ∧ 0 < v.toRat) ∧ (is_int h = true ∧ 0 < h.toRat)
  | .pair a b, none =>
      (is_int a = true ∧ 0 < a.toRat) ∧ (is_int b = true ∧ 0 < b.toRat) ∧
        a.toRat < b.toRat
  | .pair _ _, some _ => False

/-! ## Tile kernels (`_focal_chunk`, `_correlate2d_chunk`)

Padded tiles are embedded as a `Mat`: explicit row and column counts
plus an index function.  `np.empty_like` allocates uninitialized memory,
so the chunk kernels take the initial output contents as an arbitrary
`junk` parameter and the claims identify the cells actually written. -/

structure Mat (α : Type) where
  rows : ℕ
  cols : ℕ
  get : ℕ → ℕ → α

/-- Embeds `_get_offsets`: cells on either side of the kernel center in
both directions, `((top, bottom), (left, right))`. -/
def get_offsets (krows kcols : ℕ) : (ℕ × ℕ) × (ℕ × ℕ) :=
  (((krows - 1) / 2, krows / 2), ((kcols - 1) / 2, kcols / 2))

/-- Embeds the kernel-values gather of `_focal_chunk` at cell `(r, c)`:
the row-major flat buffer is prefilled with NaN, and each position whose
footprint flag is true receives the tile value at the corresponding
offset. -/
def kernel_values (chunk : Mat FVal) (kernel : Mat Bool) (r c : ℕ) :
    List FVal :=
  let kr_top := (kernel.rows - 1) / 2
  let kc_left := (kernel.cols - 1) / 2
  ((List.range kernel.rows).map fun i =>
    (List.range kernel.cols).map fun j =>
      if kernel.get i j then chunk.get (r - kr_top + i) (c - kc_left + j)
      else none).flatten

/-- Embeds `_focal_chunk`: writes `func` of the gathered kernel values
at every cell strictly inside the overlap border and leaves the rest of
the `np.empty_like` output untouched (`junk`). -/
def focal_chunk (chunk : Mat FVal) (kernel : Mat Bool)
    (func : List FVal → FVal) (junk : ℕ → ℕ → FVal) : Mat FVal where
  rows := chunk.rows
  cols := chunk.cols
  get r c :=
    let r_ovlp := max ((kernel.rows - 1) / 2) (kernel.rows / 2)
    let c_ovlp := max ((kernel.cols - 1) / 2) (kernel.cols / 2)
    if r_ovlp ≤ r ∧ r < chunk.rows - r_ovlp ∧
        c_ovlp ≤ c ∧ c < chunk.cols - c_ovlp then
      func (kernel_values chunk kernel r c)
    else junk r c

/-- The trimming step of `map_overlap`: strip `rp` halo rows and `cp`
halo columns from each side. -/
def Mat.trim (m : Mat α) (rp cp : ℕ) : Mat α where
  rows := m.rows - 2 * rp
  cols := m.cols - 2 * cp
  get r c := m.get (r + rp) (c + cp)

/-- One padded tile's contribution under `_focal_dask_map`: run the
chunk kernel, then trim the `depth = (rpad, cpad)` halo exactly as
`map_overlap` does. -/
def tile_kernel (tile : Mat FVal) (kernel : Mat Bool)
    (func : List FVal → FVal) (junk : ℕ → ℕ → FVal) : Mat FVal :=
  let offsets := get_offsets kernel.rows kernel.cols
  (focal_chunk tile kernel func junk).trim (max offsets.1.1 offsets.1.2)
    (max offsets.2.1 offsets.2.2)

/-- Row-major enumeration of kernel positions (the flat `ki` index). -/
def kernel_positions (krows kcols : ℕ) : List (ℕ × ℕ) :=
  ((List.range krows).map fun i =>
    (List.range kcols).map fun j => (i, j)).flatten

/-- The loop body of `_correlate2d_chunk`: a NaN source value is skipped
(the accumulator is unchanged); otherwise `kernel weight × value` is
added. -/
def corr_step (chunk : Mat FVal) (kernel : Mat ℚ) (r c : ℕ) (v : ℚ)
    (ij : ℕ × ℕ) : ℚ :=
  match chunk.get (r - (kernel.rows - 1) / 2 + ij.1)
      (c - (kernel.cols - 1) / 2 + ij.2) with
  | none => v
  | some val => v + kernel.get ij.1 ij.2 * val

/-- The contribution of one kernel position to the correlation sum:
zero for a NaN (masked) source cell, `weight × value` otherwise. -/
def corr_term (chunk : Mat FVal) (kernel : Mat ℚ) (r c : ℕ)
    (ij : ℕ × ℕ) : ℚ :=
  match chunk.get (r - (kernel.rows - 1) / 2 + ij.1)
      (c - (kernel.cols - 1) / 2 + ij.2) with
  | none => 0
  | some val => kernel.get ij.1 ij.2 * val

/-- The running weighted sum of `_correlate2d_chunk` at cell `(r, c)`. -/
def correlate_cell (chunk : Mat FVal) (kernel : Mat ℚ) (r c : ℕ) : ℚ :=
  (kernel_positions kernel.rows kernel.cols).foldl
    (corr_step chunk kernel r c) 0

/-- Embeds `_correlate2d_chunk`: the null-aware correlation kernel. -/
def correlate2d_chunk (chunk : Mat FVal) (kernel : Mat ℚ)
    (junk : ℕ → ℕ → FVal) : Mat FVal where
  rows := chunk.rows
  cols := chunk.cols
  get r c :=
    let r_ovlp := max ((kernel.rows - 1) / 2) (kernel.rows / 2)
    let c_ovlp := max ((kernel.cols - 1) / 2) (kernel.cols / 2)
    if r_ovlp ≤ r ∧ r < chunk.rows - r_ovlp ∧
        c_ovlp ≤ c ∧ c < chunk.cols - c_ovlp then
      some (correlate_cell chunk kernel r c)
    else junk r c

/-! ## Dtypes and arrays at the raster level

The raster-level claims only distinguish integer, floating and boolean
payloads, so `Dtype` collapses the numpy widths into three tags. -/

inductive Dtype
  | intT
  | floatT
  | boolT
deriving DecidableEq

/-- Modelled from the spec (`_utils.is_int` on dtypes, not under src/):
integer dtype test. -/
def dtype_is_int : Dtype → Bool
  | .intT => true
  | _ => false

/-- Modelled from the spec (`_utils.is_float`, not under src/): floating
dtype test. -/
def dtype_is_float : Dtype → Bool
  | .floatT => true
  | _ => false

/-- Modelled from the spec (`_utils.is_bool`, not under src/): boolean
dtype test. -/
def dtype_is_bool : Dtype → Bool
  | .boolT => true
  | _ => false

/-- Modelled from the spec (`_types.promote_dtype_to_float`, not under
src/): "promote integer payloads to a floating dtype"; with a single
floating tag every dtype promotes to it. -/
def promote_dtype_to_float : Dtype → Dtype := fun _ => .floatT

/-- Truncation toward zero, the numpy float→int value cast. -/
def trunc_q (q : ℚ) : ℤ := if q < 0 then ⌈q⌉ else ⌊q⌋

/-- Value cast applied by numpy `astype` and by assignment into an array
of dtype `d`.  NaN cast to an integer dtype is implementation-defined in
numpy; the model keeps the missing marker. -/
def cast_val (d : Dtype) (v : FVal) : FVal :=
  match d, v with
  | .floatT, v => v
  | .intT, some q => some ((trunc_q q : ℤ) : ℚ)
  | .intT, none => none
  | .boolT, some q => some (if q = 0 then 0 else 1)
  | .boolT, none => none

/-- One band of a raster: a 2-D array with a dtype. -/
structure BandArr where
  dtype : Dtype
  rows : ℕ
  cols : ℕ
  get : ℕ → ℕ → FVal

/-- A `(band, y, x)` dask array with a dtype. -/
structure DataArr where
  dtype : Dtype
  bands : ℕ
  rows : ℕ
  cols : ℕ
  get : ℕ → ℕ → ℕ → FVal

/-- numpy/dask `astype`: cast every value, change the dtype. -/
def DataArr.astype (a : DataArr) (d : Dtype) : DataArr :=
  { a with dtype := d, get := fun k r c => cast_val d (a.get k r c) }

/-- Modelled from the spec (`_types.promote_data_dtype`, not under
src/): promote the array to a floating dtype; the values, exact in the
model, are unchanged. -/
def promote_data_band (b : BandArr) : BandArr :=
  { b with dtype := promote_dtype_to_float b.dtype }

/-- Band view `data[bnd]`. -/
def DataArr.band (a : DataArr) (bnd : ℕ) : BandArr :=
  ⟨a.dtype, a.rows, a.cols, a.get bnd⟩

/-- Band assignment `data[bnd] = b`: dask setitem keeps the container's
dtype and casts the assigned values into it. -/
def DataArr.setBand (a : DataArr) (bnd : ℕ) (b : BandArr) : DataArr :=
  { a with
    get := fun k r c =>
      if k = bnd then cast_val a.dtype (b.get r c) else a.get k r c }

/-! ## Weight kernels and the external correlation/filter primitives -/

/-- A weight kernel as `np.asarray` of a rectangular nested list, with
its inferred dtype; `none` entries model NaN weights. -/
structure KArr where
  dtype : Dtype
  entries : List (List FVal)

/-- Shape test behind `len(kernel.shape) == 2`: `np.asarray` of a
nonempty rectangular list of lists is 2-D. -/
def kernel_is2d (k : KArr) : Bool :=
  !k.entries.isEmpty &&
    k.entries.all (fun row => row.length == (k.entries.getD 0 []).length)

/-- Embeds `check_kernel`: reject non-2-D kernels and NaN weights. -/
def check_kernel (k : KArr) : Except String Unit :=
  if !kernel_is2d k then .error "Kernel must be 2D"
  else if k.entries.any (fun row => row.any (fun v => v.isNone)) then
    .error "Kernel can not contain NaN values"
  else .ok ()

/-- numpy `astype` on a kernel. -/
def KArr.astype (k : KArr) (d : Dtype) : KArr :=
  ⟨d, k.entries.map (fun row => row.map (cast_val d))⟩

/-- Embeds `kernel[::-1, ::-1]`: the 180° rotation used by `convolve`. -/
def rot180 (k : KArr) : KArr :=
  ⟨k.dtype, (k.entries.map List.reverse).reverse⟩

/-- Weight view of a checked (NaN-free) kernel. -/
def KArr.toMat (k : KArr) : Mat ℚ :=
  ⟨k.entries.length, (k.entries.getD 0 []).length,
    fun i j => ((k.entries.getD i []).getD j none).getD 0⟩

/-- Boolean footprint as 0/1 weights (scipy casts boolean kernels). -/
def bool_mat_to_q (k : Mat Bool) : Mat ℚ :=
  ⟨k.rows, k.cols, fun i j => if k.get i j then 1 else 0⟩

/-- Reflected index for the `reflect` edge mode
(`d c b a | a b c d | d c b a`): period `2n`, mirrored. -/
def reflect_idx (n : ℕ) (i : ℤ) : ℕ :=
  let m := (i.emod (2 * n)).toNat
  if m < n then m else 2 * n - 1 - m

/-- Per-axis index synthesis for the edge-extension modes; `none` means
the constant fill value is used. -/
def ext_idx (mode : String) (n : ℕ) (i : ℤ) : Option ℕ :=
  if 0 ≤ i ∧ i < (n : ℤ) then some i.toNat
  else if mode = "nearest" then some (if i < 0 then 0 else n - 1)
  else if mode = "wrap" then some (i.emod (n : ℤ)).toNat
  else if mode = "reflect" then some (reflect_idx n i)
  else none

/-- Edge-extended read of a band. -/
def ext_get (b : BandArr) (mode : String) (cval : ℚ) (i j : ℤ) : FVal :=
  match ext_idx mode b.rows i, ext_idx mode b.cols j with
  | some r, some c => b.get r c
  | _, _ => some cval

/-- NaN-poisoning addition of floating values. -/
def opt_add (a b : FVal) : FVal :=
  match a, b with
  | some x, some y => some (x + y)
  | _, _ => none

/-- Weight times floating value; NaN propagates. -/
def opt_scale (w : ℚ) (v : FVal) : FVal := v.map (fun x => w * x)

/-- Models `dask_image.ndfilters.correlate` as used by the source:
direct correlation with edge extension.  The kernel center on each axis
is `size // 2 + origin` (scipy's convention); `_correlate` passes origin
`-1` on even dimensions, `_focal`'s sum path passes the default `0`. -/
def nd_correlate (b : BandArr) (kernel : Mat ℚ) (mode : String) (cval : ℚ)
    (origin_r origin_c : ℤ) : BandArr :=
  { b with
    get := fun r c =>
      (kernel_positions kernel.rows kernel.cols).foldl
        (fun v ij => opt_add v (opt_scale (kernel.get ij.1 ij.2)
          (ext_get b mode cval
            ((r : ℤ) + ij.1 - ((kernel.rows / 2 : ℕ) + origin_r))
            ((c : ℤ) + ij.2 - ((kernel.cols / 2 : ℕ) + origin_c)))))
        (some 0) }

/-- NaN-poisoning minimum. -/
def opt_min (a b : FVal) : FVal :=
  match a, b with
  | some x, some y => some (min x y)
  | _, _ => none

/-- NaN-poisoning maximum. -/
def opt_max (a b : FVal) : FVal :=
  match a, b with
  | some x, some y => some (max x y)
  | _, _ => none

/-- Candidate values under a footprint for the scipy filters (default
origin: center at `size // 2`), with the `nearest` edge extension used
by `_focal`. -/
def footprint_samples (b : BandArr) (footprint : Mat Bool) (r c : ℕ) :
    List FVal :=
  ((kernel_positions footprint.rows footprint.cols).filter
    (fun ij => footprint.get ij.1 ij.2)).map
    (fun ij => ext_get b "nearest" 0
      ((r : ℤ) + ij.1 - (footprint.rows / 2 : ℕ))
      ((c : ℤ) + ij.2 - (footprint.cols / 2 : ℕ)))

/-- Models `ndfilters.minimum_filter` with a footprint, mode `nearest`. -/
def nd_min_filter (b : BandArr) (footprint : Mat Bool) : BandArr :=
  { b with
    get := fun r c =>
      match footprint_samples b footprint r c with
      | [] => none
      | v :: rest => rest.foldl opt_min v }

/-- Models `ndfilters.maximum_filter` with a footprint, mode `nearest`. -/
def nd_max_filter (b : BandArr) (footprint : Mat Bool) : BandArr :=
  { b with
    get := fun r c =>
      match footprint_samples b footprint r c with
      | [] => none
      | v :: rest => rest.foldl opt_max v }

/-! ## Dask-side dispatch (`_focal_dask_map`, `_focal_dispatch`) -/

/-- Halo synthesis policy for `map_overlap`'s `boundary=` argument. -/
inductive Boundary
  | val (v : FVal)
  | reflect
  | nearest
  | periodic

/-- Embeds `_MODE_TO_DASK_BOUNDARY` plus the `constant → cval`
replacement in `_correlate`. -/
def mode_to_dask_boundary (mode : String) (cval : ℚ) : Boundary :=
  if mode = "reflect" then .reflect
  else if mode = "nearest" then .nearest
  else if mode = "wrap" then .periodic
  else .val (some cval)

/-- Pad a band by `(rp, cp)` halo cells on each side, synthesizing halo
values according to the boundary policy. -/
def pad_chunk (b : BandArr) (rp cp : ℕ) (bd : Boundary) : Mat FVal where
  rows := b.rows + 2 * rp
  cols := b.cols + 2 * cp
  get r c :=
    let i : ℤ := (r : ℤ) - rp
    let j : ℤ := (c : ℤ) - cp
    if 0 ≤ i ∧ i < (b.rows : ℤ) ∧ 0 ≤ j ∧ j < (b.cols : ℤ) then
      b.get i.toNat j.toNat
    else
      match bd with
      | .val v => v
      | .reflect => ext_get b "reflect" 0 i j
      | .nearest => ext_get b "nearest" 0 i j
      | .periodic => ext_get b "wrap" 0 i j

/-- Embeds `_focal_dask_map` in its single-chunk semantics: `map_overlap`
pads by `depth = (rpad, cpad)` (symmetric maxima of the offsets),
applies the chunk function, and trims the same depth; the dtype is
carried over. -/
def focal_dask_map (b : BandArr) (chunk_func : Mat FVal → Mat FVal)
    (krows kcols : ℕ) (bd : Boundary) : BandArr :=
  let offsets := get_offsets krows kcols
  let rpad := max offsets.1.1 offsets.1.2
  let cpad := max offsets.2.1 offsets.2.2
  let out := (chunk_func (pad_chunk b rpad cpad bd)).trim rpad cpad
  ⟨b.dtype, out.rows, out.cols, out.get⟩

/-- Embeds `_focal_dispatch` for the reducer ("focal") operation. -/
def focal_dispatch_focal (b : BandArr) (kernel : Mat Bool)
    (func : List FVal → FVal) : BandArr :=
  focal_dask_map b (fun m => focal_chunk m kernel func (fun _ _ => none))
    kernel.rows kernel.cols (.val none)

/-- Embeds `_focal_dispatch` for the "correlate" operation. -/
def focal_dispatch_correlate (b : BandArr) (kernel : Mat ℚ)
    (bd : Boundary) : BandArr :=
  focal_dask_map b (fun m => correlate2d_chunk m kernel (fun _ _ => none))
    kernel.rows kernel.cols bd

/-! ## Statistic catalogs and per-band dispatch -/

/-- Embeds `FOCAL_STATS`. -/
def FOCAL_STATS : List String :=
  ["asm", "entropy", "max", "mean", "median", "mode", "min", "std", "sum",
   "var", "unique"]

/-- Embeds `FOCAL_PROMOTING_OPS`: focal ops that promote the dtype to
float. -/
def FOCAL_PROMOTING_OPS : List String :=
  ["asm", "entropy", "mean", "median", "std", "var"]

/-- Embeds `_focal` on one band: dtype promotion for nan-aware or
float-forcing statistics, then dispatch to the matching reducer or
delegated external filter.  The square-root and logarithm maps of the
std and entropy reducers are passed through as parameters. -/
def focal_band (sqrt log : ℚ → ℚ) (data : BandArr) (kernel : Mat Bool)
    (stat : String) (nan_aware : Bool) : Except String BandArr :=
  if stat ∉ FOCAL_STATS then .error "Unknown focal stat"
  else
    let data := if nan_aware || decide (stat ∈ FOCAL_PROMOTING_OPS) then
      promote_data_band data else data
    if stat = "asm" then .ok (focal_dispatch_focal data kernel agg_nan_asm)
    else if stat = "entropy" then
      .ok (focal_dispatch_focal data kernel (agg_nan_entropy log))
    else if stat = "min" then
      if !nan_aware then .ok (nd_min_filter data kernel)
      else .ok (focal_dispatch_focal data kernel agg_nan_min)
    else if stat = "max" then
      if !nan_aware then .ok (nd_max_filter data kernel)
      else .ok (focal_dispatch_focal data kernel agg_nan_max)
    else if stat = "mode" then
      .ok (focal_dispatch_focal data kernel agg_nan_mode)
    else if stat = "mean" then
      .ok (focal_dispatch_focal data kernel agg_nan_mean)
    else if stat = "median" then
      .ok (focal_dispatch_focal data kernel agg_nan_median)
    else if stat = "std" then
      .ok (focal_dispatch_focal data kernel (agg_nan_std sqrt))
    else if stat = "var" then
      .ok (focal_dispatch_focal data kernel agg_nan_var)
    else if stat = "sum" then
      if !nan_aware then
        .ok (nd_correlate data (bool_mat_to_q kernel) "constant" 0 0 0)
      else .ok (focal_dispatch_focal data kernel agg_nan_sum)
    else .ok (focal_dispatch_focal data kernel agg_nan_unique)

/-- Embeds `_VALID_CORRELATE_MODES`. -/
def VALID_CORRELATE_MODES : List String :=
  ["reflect", "nearest", "wrap", "constant"]

/-- Embeds `_correlate` on one band: validation, dtype alignment of data
and kernel, then the nan-aware explicit kernel or the delegated
`ndfilters.correlate` with the even-dimension origin shift. -/
def correlate_band (data : BandArr) (kernel : KArr) (mode : String)
    (cval : ℚ) (nan_aware : Bool) : Except String BandArr :=
  match check_kernel kernel with
  | .error e => .error e
  | .ok _ =>
    if mode ∉ VALID_CORRELATE_MODES then .error "Invalid mode"
    else
      let data := if nan_aware then promote_data_band data else data
      let kernel := if dtype_is_bool kernel.dtype then kernel.astype .intT
        else kernel
      let kernel := if dtype_is_float data.dtype && dtype_is_int kernel.dtype
        then kernel.astype data.dtype else kernel
      let data := if dtype_is_int data.dtype && dtype_is_float kernel.dtype
        then promote_data_band data else data
      if nan_aware then
        .ok (focal_dispatch_correlate data kernel.toMat
          (mode_to_dask_boundary mode cval))
      else
        .ok (nd_correlate data kernel.toMat mode cval
          (if kernel.toMat.rows % 2 = 0 then -1 else 0)
          (if kernel.toMat.cols % 2 = 0 then -1 else 0))

/-! ## Heap, rasters and the orchestrators

Rasters hold references into a heap of payload and mask arrays so that
copying, aliasing and the in-place `rs._rs.data = ...` writes of the
source can be tracked. -/

/-- Null mask contents, `(band, y, x)`. -/
abbrev MaskArr := ℕ → ℕ → ℕ → Bool

structure Heap where
  next : ℕ
  dmem : ℕ → DataArr
  mmem : ℕ → MaskArr

/-- Pointwise function update. -/
def upd {α : Type} (f : ℕ → α) (i : ℕ) (v : α) : ℕ → α :=
  fun j => if j = i then v else f j

/-- In-place write of a payload array (`xdata.data = ...`). -/
def Heap.writeData (h : Heap) (i : ℕ) (d : DataArr) : Heap :=
  { h with dmem := upd h.dmem i d }

/-- A raster: references to its payload and mask plus the declared
nodata value (`raster._masked` holds iff a nodata value is set). -/
structure Raster where
  dataRef : ℕ
  maskRef : ℕ
  nullValue : Option ℚ

def Raster.masked (r : Raster) : Bool := r.nullValue.isSome

/-- The raster's references are live in the heap (allocated earlier). -/
def Raster.okIn (r : Raster) (h : Heap) : Prop :=
  r.dataRef < h.next ∧ r.maskRef < h.next

/-- Embeds `raster.copy()` (`Raster(self)` →
`self._ds.copy(deep=True)`): fresh references holding copies of the
payload and the mask. -/
def raster_copy (h : Heap) (r : Raster) : Heap × Raster :=
  (⟨h.next + 2, upd h.dmem h.next (h.dmem r.dataRef),
    upd h.mmem (h.next + 1) (h.mmem r.maskRef)⟩,
   ⟨h.next, h.next + 1, r.nullValue⟩)

/-- Embeds `da.where(mask, np.nan, data)` (equivalently
`da.where(~mask, data, np.nan)`): burn NaN at masked cells. -/
def where_nan (mask : MaskArr) (d : DataArr) : DataArr :=
  { d with
    get := fun k r c => if mask k r c then none else d.get k r c }

/-- Embeds the per-band loop `for bnd: data[bnd] = f(data[bnd])`,
including the setitem cast back into the container's dtype. -/
def band_loop (data : DataArr) (f : BandArr → Except String BandArr) :
    Except String DataArr :=
  (List.range data.bands).foldlM
    (fun acc bnd => (f (acc.band bnd)).map (fun b => acc.setBand bnd b)) data

/-- Footprint-window view of the nested boolean list built by
`get_focal_window`. -/
def window_mat (w : List (List Bool)) : Mat Bool :=
  ⟨w.length, (w.getD 0 []).length, fun i j => (w.getD i []).getD j false⟩

/-- The pure section of `focal` between the copy and the final data
write: mask burning with dtype promotion, the per-band dispatch, and the
conditional demotion back to the original dtype.  `data0` is the copied
payload, `mask` the input raster's mask contents. -/
def focal_apply (sqrt log : ℚ → ℚ) (data0 : DataArr) (mask : MaskArr)
    (masked : Bool) (focal_type : String) (window : List (List Bool)) :
    Except String DataArr :=
  let final_dtype := data0.dtype
  let st :=
    if masked then
      let new_dtype := promote_dtype_to_float data0.dtype
      let upcast := decide (new_dtype ≠ data0.dtype)
      let data1 := if new_dtype ≠ data0.dtype then data0.astype new_dtype
        else data0
      (upcast, where_nan mask data1)
    else (false, data0)
  match band_loop st.2 (fun b =>
      focal_band sqrt log b (window_mat window) focal_type masked) with
  | .error e => .error e
  | .ok data2 =>
    .ok (if st.1 && decide (focal_type ∉ FOCAL_PROMOTING_OPS) then
      data2.astype final_dtype else data2)

/-- The copy–compute–write pattern shared by `focal` and `correlate`:
copy the input raster, run the pure pipeline on the copy's payload and
the input's mask contents, and write the result into the copy's data
slot. -/
def run_op (h : Heap) (r : Raster)
    (F : DataArr → MaskArr → Except String DataArr) :
    Except String (Heap × Raster) :=
  match F ((raster_copy h r).1.dmem (raster_copy h r).2.dataRef)
      ((raster_copy h r).1.mmem r.maskRef) with
  | .error e => .error e
  | .ok d =>
      .ok ((raster_copy h r).1.writeData (raster_copy h r).2.dataRef d,
        (raster_copy h r).2)

/-- Embeds `focal`: validate the statistic, build the window, copy the
raster, run the pure pipeline on the copied payload and the input
raster's mask, and write the result into the copy's data slot. -/
def focal (sqrt log : ℚ → ℚ) (h : Heap) (raster : Raster)
    (focal_type : String) (width_or_radius : FocalSpec)
    (height : Option PyNum) : Except String (Heap × Raster) :=
  if focal_type ∉ FOCAL_STATS then .error "Unknown focal operation"
  else
    match get_focal_window width_or_radius height with
    | .error e => .error e
    | .ok window =>
      run_op h raster (fun data mask =>
        focal_apply sqrt log data mask raster.masked focal_type window)

/-- The pure section of `correlate` after the copy: the float cast for
float kernels over integer payloads, mask burning with promotion, the
per-band `_correlate`, and the demotion when promotion occurred. -/
def correlate_apply (data0 : DataArr) (mask : MaskArr) (masked : Bool)
    (kernel : KArr) (mode : String) (cval : ℚ) : Except String DataArr :=
  let dataA := if dtype_is_float kernel.dtype && dtype_is_int data0.dtype
    then data0.astype .floatT else data0
  let final_dtype := dataA.dtype
  let st :=
    if masked then
      let new_dtype := promote_dtype_to_float dataA.dtype
      let upcast := decide (new_dtype ≠ dataA.dtype)
      let data1 := if new_dtype ≠ dataA.dtype then dataA.astype new_dtype
        else dataA
      (upcast, where_nan mask data1)
    else (false, dataA)
  match band_loop st.2 (fun b => correlate_band b kernel mode cval masked) with
  | .error e => .error e
  | .ok data2 => .ok (if st.1 then data2.astype final_dtype else data2)

/-- Embeds `correlate`: kernel checks, raster copy, the pure pipeline,
and the final write into the copy's data slot.  The in-place
`astype(F64)` write to the copy that the source performs before the band
loop only touches the copy's slot, which the final write overwrites, so
it is folded into the pipeline. -/
def correlate (h : Heap) (raster : Raster) (kernel : KArr) (mode : String)
    (cval : ℚ) : Except String (Heap × Raster) :=
  match check_kernel kernel with
  | .error e => .error e
  | .ok _ =>
    run_op h raster (fun data mask =>
      correlate_apply data mask raster.masked kernel mode cval)

/-- Embeds `convolve`: check the kernel, rotate it 180°, delegate to
`correlate`. -/
def convolve (h : Heap) (raster : Raster) (kernel : KArr) (mode : String)
    (cval : ℚ) : Except String (Heap × Raster) :=
  match check_kernel kernel with
  | .error e => .error e
  | .ok _ => correlate h raster (rot180 kernel) mode cval

/-- Frame property of one raster-operation outcome: the input raster's
payload and mask slots are untouched and the returned raster holds
fresh references. -/
def preserves_input (h : Heap) (r : Raster)
    (res : Except String (Heap × Raster)) : Prop :=
  ∀ h' out, res = .ok (h', out) →
    h'.dmem r.dataRef = h.dmem r.dataRef ∧
    h'.mmem r.maskRef = h.mmem r.maskRef ∧
    out.dataRef ≠ r.dataRef ∧ out.maskRef ≠ r.maskRef

/-- Repetition property: a second run on the unchanged input raster
succeeds again and yields a raster with the same contents. -/
def repeats_same (call : Heap → Except String (Heap × Raster)) (h : Heap) :
    Prop :=
  ∀ h1 out1, call h = .ok (h1, out1) →
    ∃ h2 out2, call h1 = .ok (h2, out2) ∧
      h2.dmem out2.dataRef = h1.dmem out1.dataRef ∧
      h2.mmem out2.maskRef = h1.mmem out1.maskRef ∧
      out2.nullValue = out1.nullValue

/-- Default empty payload used to initialize example heaps. -/
def default_data : DataArr := ⟨.intT, 0, 0, 0, fun _ _ _ => none⟩

/-- A tiny example heap: slot 0 holds a single-band 1×1 integer payload,
every mask slot is clear. -/
def example_heap : Heap :=
  ⟨2,
   fun i => if i = 0 then ⟨.intT, 1, 1, 1, fun _ _ _ => some 3⟩
     else default_data,
   fun _ => fun _ _ _ => false⟩

/-- An unmasked raster over slot 0 of `example_heap`. -/
def example_raster : Raster := ⟨0, 1, none⟩

/-- The same raster with a nodata value set (masked). -/
def example_masked_raster : Raster := ⟨0, 1, some (-9999)⟩

/-! ## Claims about the reducer library -/

/-- C1 (amended): on an empty null-filtered sample every reducer in the
catalog returns the missing sentinel (NaN), except `sum`, which embeds
`np.nansum` and therefore returns `0`. -/
theorem C1_empty_sample_policy (sqrt log : ℚ → ℚ) (xs : List FVal)
    (h : xs.filterMap id = []) :
    agg_nan_min xs = none ∧ agg_nan_max xs = none ∧ agg_nan_mean xs = none ∧
    agg_nan_median xs = none ∧ agg_nan_mode xs = none ∧ agg_nan_var xs = none ∧
    agg_nan_std sqrt xs = none ∧ agg_nan_unique xs = none ∧
    agg_nan_entropy log xs = none ∧ agg_nan_asm xs = none ∧
    agg_nan_sum xs = some 0 := by
  simp [agg_nan_min, agg_nan_max, agg_nan_mean, agg_nan_median, agg_nan_mode,
    agg_nan_var, agg_nan_std, agg_nan_unique, agg_nan_entropy, agg_nan_asm,
    agg_nan_sum, h, List.insertionSort, compact_u16, U16]

/-- C1 counterexample: the `sum` reducer applied to an all-NaN sample
returns `0`, not the missing sentinel, so the claim as stated is false. -/
theorem C1_sum_counterexample :
    agg_nan_sum ([none] : List FVal) = some 0 ∧
    agg_nan_sum ([none] : List FVal) ≠ none := by
  constructor <;> decide

/-- Witness for `C1_empty_sample_policy` at the all-NaN sample
`[none, none]`. -/
theorem C1_empty_sample_policy_witness :
    agg_nan_min ([none, none] : List FVal) = none ∧
    agg_nan_max ([none, none] : List FVal) = none ∧
    agg_nan_mean ([none, none] : List FVal) = none ∧
    agg_nan_median ([none, none] : List FVal) = none ∧
    agg_nan_mode ([none, none] : List FVal) = none ∧
    agg_nan_var ([none, none] : List FVal) = none ∧
    agg_nan_std id ([none, none] : List FVal) = none ∧
    agg_nan_unique ([none, none] : List FVal) = none ∧
    agg_nan_entropy id ([none, none] : List FVal) = none ∧
    agg_nan_asm ([none, none] : List FVal) = none ∧
    agg_nan_sum ([none, none] : List FVal) = some 0 :=
  C1_empty_sample_policy id id [none, none] rfl

/-- Specification of the first-maximum fold behind `np.argmax`: over a
sorted tail whose elements all dominate the seed, the fold returns a
maximal-key element, prefers the seed on key ties, and among equal-key
elements returns the least. -/
theorem argmax_first_spec (key : ℚ → ℕ) :
    ∀ (xs : List ℚ) (b : ℚ), (∀ y ∈ xs, b ≤ y) → xs.Sorted (· ≤ ·) →
      (argmax_first key b xs = b ∨ argmax_first key b xs ∈ xs) ∧
      key b ≤ key (argmax_first key b xs) ∧
      (∀ y ∈ xs, key y ≤ key (argmax_first key b xs)) ∧
      (key (argmax_first key b xs) = key b → argmax_first key b xs = b) ∧
      (∀ y ∈ xs, key y = key (argmax_first key b xs) →
        argmax_first key b xs ≤ y) := by
  intro xs
  induction xs with
  | nil =>
      intro b _ _
      refine ⟨Or.inl rfl, le_refl _, ?_, fun _ => rfl, ?_⟩ <;> simp
  | cons a t ih =>
      intro b hb hsort
      have hat : ∀ y ∈ t, a ≤ y := (List.sorted_cons.mp hsort).1
      have htsort : t.Sorted (· ≤ ·) := (List.sorted_cons.mp hsort).2
      by_cases hlt : key b < key a
      · have hstep : argmax_first key b (a :: t) = argmax_first key a t := by
          simp [argmax_first, hlt]
        obtain ⟨h1, h2, h3, h4, h5⟩ := ih a hat htsort
        rw [hstep]
        refine ⟨?_, ?_, ?_, ?_, ?_⟩
        · rcases h1 with h | h
          · exact Or.inr (by rw [h]; exact List.mem_cons_self a t)
          · exact Or.inr (List.mem_cons_of_mem a h)
        · exact le_of_lt (lt_of_lt_of_le hlt h2)
        · intro y hy
          rcases List.mem_cons.mp hy with rfl | hy
          · exact h2
          · exact h3 y hy
        · intro hk
          omega
        · intro y hy hk
          rcases List.mem_cons.mp hy with rfl | hy
          · exact le_of_eq (h4 hk.symm)
          · exact h5 y hy hk
      · have hstep : argmax_first key b (a :: t) = argmax_first key b t := by
          simp [argmax_first, hlt]
        have hbt : ∀ y ∈ t, b ≤ y := fun y hy => hb y (List.mem_cons_of_mem a hy)
        obtain ⟨h1, h2, h3, h4, h5⟩ := ih b hbt htsort
        rw [hstep]
        refine ⟨?_, ?_, ?_, ?_, ?_⟩
        · rcases h1 with h | h
          · exact Or.inl h
          · exact Or.inr (List.mem_cons_of_mem a h)
        · exact h2
        · intro y hy
          rcases List.mem_cons.mp hy with rfl | hy
          · omega
          · exact h3 y hy
        · exact h4
        · intro y hy hk
          rcases List.mem_cons.mp hy with rfl | hy
          · have hkm : key (argmax_first key b t) = key b := by omega
            exact le_trans (le_of_eq (h4 hkm)) (hb y (List.mem_cons_self y t))
          · exact h5 y hy hk

/-- The uint16 compaction is the identity below the wrap. -/
theorem compact_u16_small (l : List ℚ) (h : l.length < U16) :
    compact_u16 l = l := by
  unfold compact_u16
  rw [Nat.mod_eq_of_lt h, Nat.div_eq_of_lt h]
  simp only [Nat.zero_mul, Nat.zero_add]
  apply List.ext_getElem
  · simp
  · intro i h1 h2
    simp only [List.getElem_map, List.getElem_range]
    rw [List.getD_eq_getElem?_getD, List.getElem?_eq_getElem h2]
    rfl

/-- C4 (amended): on a nonempty null-filtered sample with fewer than
2^16 values — below the wrap of the reducer's uint16 compaction index
and occurrence counters — the mode reducer returns a value of the
sample attaining the maximal occurrence count, and on count ties it
returns the numerically smallest tied value. -/
theorem C4_mode_tie_break (xs : List FVal) (hne : xs.filterMap id ≠ [])
    (hsize : (xs.filterMap id).length < U16) :
    ∃ m, agg_nan_mode xs = some m ∧ m ∈ xs.filterMap id ∧
      (∀ v ∈ xs.filterMap id,
        (xs.filterMap id).count v ≤ (xs.filterMap id).count m) ∧
      (∀ v ∈ xs.filterMap id,
        (xs.filterMap id).count v = (xs.filterMap id).count m → m ≤ v) := by
  have hkey : count_u16 (xs.filterMap id) =
      fun t => (xs.filterMap id).count t := by
    funext t
    show (xs.filterMap id).count t % U16 = (xs.filterMap id).count t
    exact Nat.mod_eq_of_lt (lt_of_le_of_lt (List.count_le_length _ _) hsize)
  have hcompact : compact_u16 (xs.filterMap id) = xs.filterMap id :=
    compact_u16_small _ hsize
  have hperm : List.Perm ((xs.filterMap id).insertionSort (· ≤ ·)) (xs.filterMap id) :=
    List.perm_insertionSort _ _
  have hsorted : ((xs.filterMap id).insertionSort (· ≤ ·)).Sorted (· ≤ ·) :=
    List.sorted_insertionSort _ _
  have hsne : (xs.filterMap id).insertionSort (· ≤ ·) ≠ [] := by
    intro h
    rw [h] at hperm
    exact hne hperm.symm.eq_nil
  obtain ⟨v, rest, hcons⟩ := List.exists_cons_of_ne_nil hsne
  have hmode : agg_nan_mode xs =
      some (argmax_first (fun t => (xs.filterMap id).count t) v rest) := by
    have hdef : agg_nan_mode xs =
        match (xs.filterMap id).insertionSort (· ≤ ·) with
        | [] => none
        | w :: r => some (argmax_first (fun t => (xs.filterMap id).count t) w r) := by
      show (match (compact_u16 (xs.filterMap id)).insertionSort (· ≤ ·) with
        | [] => none
        | w :: r => some (argmax_first (count_u16 (xs.filterMap id)) w r)) = _
      rw [hcompact, hkey]
    rw [hdef, hcons]
  rw [hcons] at hsorted hperm
  have hvrest : ∀ y ∈ rest, v ≤ y := (List.sorted_cons.mp hsorted).1
  have hrsort : rest.Sorted (· ≤ ·) := (List.sorted_cons.mp hsorted).2
  obtain ⟨h1, h2, h3, h4, h5⟩ :=
    argmax_first_spec (fun t => (xs.filterMap id).count t) rest v hvrest hrsort
  set m := argmax_first (fun t => (xs.filterMap id).count t) v rest with hm
  have hmem : m ∈ xs.filterMap id := by
    rcases h1 with h | h
    · exact hperm.mem_iff.mp (h ▸ List.mem_cons_self v rest)
    · exact hperm.mem_iff.mp (List.mem_cons_of_mem v h)
  refine ⟨m, hmode, hmem, ?_, ?_⟩
  · intro y hy
    rcases List.mem_cons.mp (hperm.mem_iff.mpr hy) with rfl | hyr
    · exact h2
    · exact h3 y hyr
  · intro y hy hk
    rcases List.mem_cons.mp (hperm.mem_iff.mpr hy) with rfl | hyr
    · exact le_of_eq (h4 hk.symm)
    · exact h5 y hyr hk

/-- Witness for `C4_mode_tie_break`: in the sample `[2, 1, 2, 1, 3]`
(with one NaN), values `1` and `2` tie at count two and the mode picks
the smaller. -/
theorem C4_mode_tie_break_witness :
    ∃ m, agg_nan_mode ([some 2, some 1, none, some 2, some 1, some 3] : List FVal) = some m ∧
      m ∈ ([some 2, some 1, none, some 2, some 1, some 3] : List FVal).filterMap id ∧
      (∀ v ∈ ([some 2, some 1, none, some 2, some 1, some 3] : List FVal).filterMap id,
        (([some 2, some 1, none, some 2, some 1, some 3] : List FVal).filterMap id).count v ≤
        (([some 2, some 1, none, some 2, some 1, some 3] : List FVal).filterMap id).count m) ∧
      (∀ v ∈ ([some 2, some 1, none, some 2, some 1, some 3] : List FVal).filterMap id,
        (([some 2, some 1, none, some 2, some 1, some 3] : List FVal).filterMap id).count v =
        (([some 2, some 1, none, some 2, some 1, some 3] : List FVal).filterMap id).count m →
        m ≤ v) :=
  C4_mode_tie_break [some 2, some 1, none, some 2, some 1, some 3] (by decide)
    (by decide)

/-- Null-filtering the big sample keeps all 65539 values. -/
theorem filterMap_id_replicate_some (n : ℕ) (a : ℚ) :
    (List.replicate n (some a) : List FVal).filterMap id =
      List.replicate n a := by
  induction n with
  | zero => rfl
  | succ n ih => simp [List.replicate_succ, List.filterMap_cons, ih]

/-- The big sample's null-filtered values in plain form. -/
theorem c4_big_sample_filterMap :
    c4_big_sample.filterMap id = List.replicate 65537 (1 : ℚ) ++ [2, 2] := by
  unfold c4_big_sample
  rw [List.filterMap_append, filterMap_id_replicate_some]
  rfl

/-- Reading a replicate list inside its bounds. -/
theorem getD_replicate_lt (n : ℕ) (a d : ℚ) (i : ℕ) (hi : i < n) :
    (List.replicate n a).getD i d = a := by
  rw [List.getD_eq_getElem?_getD, List.getElem?_replicate]
  simp [hi]

/-- True occurrence counts in the big sample. -/
theorem c4_big_counts :
    (c4_big_sample.filterMap id).count (1 : ℚ) = 65537 ∧
    (c4_big_sample.filterMap id).count (2 : ℚ) = 2 := by
  refine ⟨?_, ?_⟩ <;>
    rw [c4_big_sample_filterMap, List.count_append, List.count_replicate] <;>
    norm_num

/-- Closed form of the uint16 compaction for a list of length
`k·2^16 + r` with `r < 2^16`. -/
theorem compact_u16_eval (l : List ℚ) (k r : ℕ)
    (hl : l.length = k * U16 + r) (hr : r < U16) :
    compact_u16 l = (List.range r).map (fun p => l.getD (k * U16 + p) 0) := by
  unfold compact_u16
  rw [hl]
  have hm : (k * U16 + r) % U16 = r := by
    rw [Nat.mul_comm, Nat.mul_add_mod]
    exact Nat.mod_eq_of_lt hr
  have hd : (k * U16 + r) / U16 = k := by
    rw [Nat.mul_comm, Nat.mul_add_div (by norm_num [U16]), Nat.div_eq_of_lt hr]
    omega
  rw [hm, hd]

/-- The wrapped uint16 compaction of the big sample: the write index has
wrapped once, so only the last three values written survive in
`vals = x[:j]`. -/
theorem c4_big_compact :
    compact_u16 (c4_big_sample.filterMap id) = [1, 2, 2] := by
  rw [c4_big_sample_filterMap]
  have hl : (List.replicate 65537 (1 : ℚ) ++ [2, 2]).length = 1 * U16 + 3 := by
    rw [List.length_append, List.length_replicate]
    norm_num [U16]
  rw [compact_u16_eval _ 1 3 hl (by norm_num [U16])]
  have hr3 : List.range 3 = [0, 1, 2] := rfl
  rw [hr3]
  simp only [List.map_cons, List.map_nil]
  have hi0 : 1 * U16 + 0 = 65536 := by norm_num [U16]
  have hi1 : 1 * U16 + 1 = 65537 := by norm_num [U16]
  have hi2 : 1 * U16 + 2 = 65538 := by norm_num [U16]
  rw [hi0, hi1, hi2]
  have g0 : (List.replicate 65537 (1 : ℚ) ++ [2, 2]).getD 65536 0 = 1 := by
    rw [List.getD_append _ _ _ _ (by simp only [List.length_replicate]; omega)]
    exact getD_replicate_lt _ _ _ _ (by omega)
  have g1 : (List.replicate 65537 (1 : ℚ) ++ [2, 2]).getD 65537 0 = 2 := by
    rw [List.getD_append_right _ _ _ _ (by simp only [List.length_replicate]; omega),
      List.length_replicate]
    have hidx : 65537 - 65537 = 0 := by norm_num
    rw [hidx]
    rfl
  have g2 : (List.replicate 65537 (1 : ℚ) ++ [2, 2]).getD 65538 0 = 2 := by
    rw [List.getD_append_right _ _ _ _ (by simp only [List.length_replicate]; omega),
      List.length_replicate]
    have hidx : 65538 - 65537 = 1 := by norm_num
    rw [hidx]
    rfl
  rw [g0, g1, g2]

/-- Unfolding equation for the mode reducer, stated at a symbolic
argument. -/
theorem agg_nan_mode_eq (xs : List FVal) :
    agg_nan_mode xs =
      match (compact_u16 (xs.filterMap id)).insertionSort (· ≤ ·) with
      | [] => none
      | v :: rest =>
          some (argmax_first (count_u16 (xs.filterMap id)) v rest) :=
  rfl

/-- Unfolding equation for the uint16 counter, stated at symbolic
arguments. -/
theorem count_u16_eq (l : List ℚ) (t : ℚ) :
    count_u16 l t = l.count t % U16 := rfl

/-- C4 counterexample: on the 65539-value sample the uint16 counter for
`1` has wrapped to `1`, so the mode reducer returns `2` even though `1`
occurs 65537 times and `2` only twice — the claim as universally stated
is false. -/
theorem C4_mode_u16_counterexample :
    agg_nan_mode c4_big_sample = some 2 ∧
    (2 : ℚ) ∈ c4_big_sample.filterMap id ∧
    (c4_big_sample.filterMap id).count (2 : ℚ) <
      (c4_big_sample.filterMap id).count (1 : ℚ) := by
  refine ⟨?_, ?_, ?_⟩
  · rw [agg_nan_mode_eq, c4_big_compact]
    have hsort : (([1, 2, 2] : List ℚ).insertionSort (· ≤ ·)) = [1, 2, 2] := by
      decide
    rw [hsort]
    have hk1 : count_u16 (c4_big_sample.filterMap id) 1 = 1 := by
      rw [count_u16_eq, c4_big_counts.1]
      norm_num [U16]
    have hk2 : count_u16 (c4_big_sample.filterMap id) 2 = 2 := by
      rw [count_u16_eq, c4_big_counts.2]
      norm_num [U16]
    simp [argmax_first, List.foldl_cons, List.foldl_nil, hk1, hk2]
  · rw [c4_big_sample_filterMap]
    exact List.mem_append.mpr (Or.inr (by decide))
  · rw [c4_big_counts.1, c4_big_counts.2]
    norm_num

/-! ## Claims about the footprint builder -/

/-- Reading a row-major range-map grid inside its bounds. -/
theorem getD_range_map {α : Type} (n : ℕ) (f : ℕ → α) (d : α) (x : ℕ)
    (hx : x < n) : ((List.range n).map f).getD x d = f x := by
  rw [List.getD_eq_getElem?_getD]
  simp [List.getElem?_map, List.getElem?_range, hx]

/-- Reading a row-major range-map grid outside its bounds yields the
default. -/
theorem getD_range_map_ge {α : Type} (n : ℕ) (f : ℕ → α) (d : α) (x : ℕ)
    (hx : n ≤ x) : ((List.range n).map f).getD x d = d := by
  rw [List.getD_eq_getElem?_getD, List.getElem?_eq_none (by simpa using hx)]
  rfl

/-- The circle window is square of side `(r-1)*2 + 1`. -/
theorem circle_window_length (r : ℕ) :
    (circle_window r).length = (r - 1) * 2 + 1 := by
  simp [circle_window]

/-- Every in-range row of the circle window has the full width. -/
theorem circle_window_row_length (r x : ℕ) (hx : x < (r - 1) * 2 + 1) :
    ((circle_window r).getD x []).length = (r - 1) * 2 + 1 := by
  unfold circle_window
  rw [getD_range_map _ _ _ _ hx]
  simp

/-- Value of an in-range circle-window cell. -/
theorem circle_window_cell (r x y : ℕ) (hx : x < (r - 1) * 2 + 1)
    (hy : y < (r - 1) * 2 + 1) :
    ((circle_window r).getD x []).getD y false =
      sqrt_le (dist2 x y (r - 1)) (r - 1) := by
  unfold circle_window
  rw [getD_range_map _ _ _ _ hx, getD_range_map _ _ _ _ hy]
  have hc : ((r - 1) * 2 + 1 - 1) / 2 = r - 1 := by omega
  rw [hc]

/-- C3: for every positive integer radius the builder returns a
`(2r-1) × (2r-1)` boolean grid whose cell `(x, y)` is true exactly when
the squared Euclidean distance to the center `(r-1, r-1)` is at most
`(r-1)²`. -/
theorem C3_circle_footprint (r : ℕ) (hr : 0 < r) :
    ∃ w, get_focal_window (.single (.intV (r : ℤ))) none = .ok w ∧
      w.length = 2 * r - 1 ∧
      (∀ row ∈ w, row.length = 2 * r - 1) ∧
      (∀ x y, x < 2 * r - 1 → y < 2 * r - 1 →
        ((w.getD x []).getD y false = true ↔
          ((x : ℤ) - ((r : ℤ) - 1)) ^ 2 + ((y : ℤ) - ((r : ℤ) - 1)) ^ 2 ≤
            ((r : ℤ) - 1) ^ 2)) := by
  have hpos : ¬ (PyNum.intV (r : ℤ)).toRat ≤ 0 := by
    simp [PyNum.toRat]
    omega
  have hgfw : get_focal_window (.single (.intV (r : ℤ))) none =
      .ok (circle_window r) := by
    unfold get_focal_window
    simp [check_values, FocalSpec.values, is_int, hpos, PyNum.asNat]
  refine ⟨circle_window r, hgfw, ?_, ?_, ?_⟩
  · rw [circle_window_length]; omega
  · intro row hrow
    unfold circle_window at hrow
    obtain ⟨x, _, rfl⟩ := List.mem_map.mp hrow
    simp
    omega
  · intro x y hx hy
    have hx' : x < (r - 1) * 2 + 1 := by omega
    have hy' : y < (r - 1) * 2 + 1 := by omega
    rw [circle_window_cell r x y hx' hy']
    unfold sqrt_le dist2
    rw [decide_eq_true_iff, Int.toNat_le]
    have hc : ((r - 1 : ℕ) : ℤ) = (r : ℤ) - 1 := by omega
    rw [hc]
    constructor
    · intro h
      calc ((x : ℤ) - ((r : ℤ) - 1)) ^ 2 + ((y : ℤ) - ((r : ℤ) - 1)) ^ 2 ≤
            ((r - 1 : ℕ) * (r - 1 : ℕ) : ℕ) := h
        _ = ((r : ℤ) - 1) ^ 2 := by push_cast [hc]; ring
    · intro h
      calc ((x : ℤ) - ((r : ℤ) - 1)) ^ 2 + ((y : ℤ) - ((r : ℤ) - 1)) ^ 2 ≤
            ((r : ℤ) - 1) ^ 2 := h
        _ = ((r - 1 : ℕ) * (r - 1 : ℕ) : ℕ) := by push_cast [hc]; ring

/-- Witness for `C3_circle_footprint` at radius `2` (the 3×3 plus
shape). -/
theorem C3_circle_footprint_witness :
    ∃ w, get_focal_window (.single (.intV ((2 : ℕ) : ℤ))) none = .ok w ∧
      w.length = 2 * 2 - 1 ∧
      (∀ row ∈ w, row.length = 2 * 2 - 1) ∧
      (∀ x y, x < 2 * 2 - 1 → y < 2 * 2 - 1 →
        ((w.getD x []).getD y false = true ↔
          ((x : ℤ) - (((2 : ℕ) : ℤ) - 1)) ^ 2 + ((y : ℤ) - (((2 : ℕ) : ℤ) - 1)) ^ 2 ≤
            (((2 : ℕ) : ℤ) - 1) ^ 2)) :=
  C3_circle_footprint 2 (by decide)

/-- C9: the footprint builder succeeds exactly on well-formed specs —
integer values greater than zero, strictly increasing radius pairs, and
no radius pair combined with an explicit height; on every malformed spec
it raises before any window is built. -/
theorem C9_footprint_validation (worr : FocalSpec) (height : Option PyNum) :
    (∃ w, get_focal_window worr height = .ok w) ↔ well_formed_spec worr height := by
  rcases worr with v | ⟨a, b⟩ <;> rcases height with _ | h
  · -- single, no height
    constructor
    · rintro ⟨w, hw⟩
      unfold get_focal_window at hw
      simp only [well_formed_spec]
      by_cases hi : is_int v
      · by_cases hv : v.toRat ≤ 0
        · simp [check_values, FocalSpec.values, hi, hv] at hw
        · exact ⟨hi, not_le.mp hv⟩
      · simp [check_values, FocalSpec.values, hi] at hw
    · rintro ⟨hi, hv⟩
      refine ⟨circle_window v.asNat, ?_⟩
      unfold get_focal_window
      simp [check_values, FocalSpec.values, hi, not_le.mpr hv]
  · -- single, explicit height
    constructor
    · rintro ⟨w, hw⟩
      unfold get_focal_window at hw
      simp only [well_formed_spec]
      by_cases hi : is_int v
      · by_cases hv : v.toRat ≤ 0
        · simp [check_values, FocalSpec.values, hi, hv] at hw
        · by_cases hih : is_int h
          · by_cases hvh : h.toRat ≤ 0
            · simp [check_values, FocalSpec.values, hi, hv, hih, hvh] at hw
            · exact ⟨⟨hi, not_le.mp hv⟩, hih, not_le.mp hvh⟩
          · simp [check_values, FocalSpec.values, hi, hv, hih] at hw
      · simp [check_values, FocalSpec.values, hi] at hw
    · rintro ⟨⟨hi, hv⟩, hih, hvh⟩
      refine ⟨rect_window v.asNat h.asNat, ?_⟩
      unfold get_focal_window
      simp [check_values, FocalSpec.values, hi, hih, not_le.mpr hv, not_le.mpr hvh]
  · -- pair, no height
    constructor
    · rintro ⟨w, hw⟩
      unfold get_focal_window at hw
      simp only [well_formed_spec]
      by_cases hab : b.toRat ≤ a.toRat
      · simp [hab] at hw
      · by_cases hia : is_int a
        · by_cases hva : a.toRat ≤ 0
          · simp [check_values, FocalSpec.values, hab, hia, hva] at hw
          · by_cases hib : is_int b
            · by_cases hvb : b.toRat ≤ 0
              · simp [check_values, FocalSpec.values, hab, hia, hva, hib, hvb] at hw
              · exact ⟨⟨hia, not_le.mp hva⟩, ⟨hib, not_le.mp hvb⟩, not_le.mp hab⟩
            · simp [check_values, FocalSpec.values, hab, hia, hva, hib] at hw
        · simp [check_values, FocalSpec.values, hab, hia] at hw
    · rintro ⟨⟨hia, hva⟩, ⟨hib, hvb⟩, hab⟩
      refine ⟨clear_cells (circle_window b.asNat)
        (pad_window (circle_window a.asNat)
          (((circle_window b.asNat).length - (circle_window a.asNat).length) / 2)), ?_⟩
      unfold get_focal_window
      simp [check_values, FocalSpec.values, hia, hib, not_le.mpr hva,
        not_le.mpr hvb, not_le.mpr hab]
  · -- pair with explicit height: always rejected
    simp only [well_formed_spec, iff_false]
    rintro ⟨w, hw⟩
    unfold get_focal_window at hw
    by_cases hab : b.toRat ≤ a.toRat
    · simp [hab] at hw
    · rcases hc : check_values (FocalSpec.pair a b).values with e | u
      · simp [hab, hc] at hw
      · simp [hab, hc] at hw

/-- Value of an in-range `clear_cells` cell. -/
theorem clear_cells_cell (w2 w1p : List (List Bool)) (x y : ℕ)
    (hx : x < w2.length) (hy : y < (w2.getD x []).length) :
    ((clear_cells w2 w1p).getD x []).getD y false =
      ((w2.getD x []).getD y false && !((w1p.getD x []).getD y false)) := by
  unfold clear_cells
  rw [getD_range_map _ _ _ _ hx, getD_range_map _ _ _ _ hy]

/-- Reading a padded window inside the payload area returns the payload
cell. -/
theorem pad_window_cell (w : List (List Bool)) (p x y : ℕ)
    (hx : x < w.length) (hy : y < (w.getD 0 []).length) :
    ((pad_window w p).getD (x + p) []).getD (y + p) false =
      (w.getD x []).getD y false := by
  unfold pad_window
  rw [getD_range_map _ _ _ _ (by omega), getD_range_map _ _ _ _ (by omega)]
  simp

/-- C7: the annulus window has the outer circle's size, clears (at the
padded position) every true cell of the inner circle, and is contained
in the outer circle. -/
theorem C7_annulus_containment (r1 r2 : ℕ) (h1 : 0 < r1) (h12 : r1 < r2) :
    ∃ w, get_focal_window (.pair (.intV (r1 : ℤ)) (.intV (r2 : ℤ))) none = .ok w ∧
      w.length = 2 * r2 - 1 ∧
      (∀ row ∈ w, row.length = 2 * r2 - 1) ∧
      (∀ x y, x < 2 * r1 - 1 → y < 2 * r1 - 1 →
        ((circle_window r1).getD x []).getD y false = true →
        (w.getD (x + (r2 - r1)) []).getD (y + (r2 - r1)) false = false) ∧
      (∀ x y, (w.getD x []).getD y false = true →
        ((circle_window r2).getD x []).getD y false = true) := by
  have hpadval : ((circle_window r2).length - (circle_window r1).length) / 2 =
      r2 - r1 := by
    rw [circle_window_length, circle_window_length]; omega
  have ha : ¬ (PyNum.intV (r1 : ℤ)).toRat ≤ 0 := by
    simp [PyNum.toRat]; omega
  have hb : ¬ (PyNum.intV (r2 : ℤ)).toRat ≤ 0 := by
    simp [PyNum.toRat]; omega
  have hab : ¬ (PyNum.intV (r2 : ℤ)).toRat ≤ (PyNum.intV (r1 : ℤ)).toRat := by
    simp [PyNum.toRat]
    omega
  have hgfw : get_focal_window (.pair (.intV (r1 : ℤ)) (.intV (r2 : ℤ))) none =
      .ok (clear_cells (circle_window r2)
        (pad_window (circle_window r1) (r2 - r1))) := by
    unfold get_focal_window
    simp [check_values, FocalSpec.values, is_int, ha, hb, hab, PyNum.asNat,
      hpadval]
  refine ⟨_, hgfw, ?_, ?_, ?_, ?_⟩
  · simp [clear_cells, circle_window_length]
    omega
  · intro row hrow
    unfold clear_cells at hrow
    obtain ⟨x, hx, rfl⟩ := List.mem_map.mp hrow
    rw [List.mem_range] at hx
    simp only [List.length_map, List.length_range]
    rw [circle_window_row_length r2 x (by rwa [circle_window_length] at hx)]
    omega
  · intro x y hx hy hc
    have hx2 : x + (r2 - r1) < (circle_window r2).length := by
      rw [circle_window_length]; omega
    have hy2 : y + (r2 - r1) < ((circle_window r2).getD (x + (r2 - r1)) []).length := by
      rw [circle_window_row_length r2 _ (by rwa [circle_window_length] at hx2)]
      omega
    rw [clear_cells_cell _ _ _ _ hx2 hy2]
    rw [pad_window_cell _ _ _ _ (by rw [circle_window_length]; omega)
      (by rw [circle_window_row_length r1 0 (by omega)]; omega)]
    rw [hc]
    simp
  · intro x y hw
    by_cases hx : x < (circle_window r2).length
    · by_cases hy : y < ((circle_window r2).getD x []).length
      · rw [clear_cells_cell _ _ _ _ hx hy] at hw
        rw [Bool.and_eq_true] at hw
        exact hw.1
      · unfold clear_cells at hw
        rw [getD_range_map _ _ _ _ hx,
          getD_range_map_ge _ _ _ _ (by omega)] at hw
        exact absurd hw (by simp)
    · unfold clear_cells at hw
      rw [getD_range_map_ge _ _ _ _ (by omega)] at hw
      exact absurd hw (by simp)

/-- Witness for `C7_annulus_containment` at `(r1, r2) = (1, 2)`. -/
theorem C7_annulus_containment_witness :
    ∃ w, get_focal_window (.pair (.intV ((1 : ℕ) : ℤ)) (.intV ((2 : ℕ) : ℤ))) none = .ok w ∧
      w.length = 2 * 2 - 1 ∧
      (∀ row ∈ w, row.length = 2 * 2 - 1) ∧
      (∀ x y, x < 2 * 1 - 1 → y < 2 * 1 - 1 →
        ((circle_window 1).getD x []).getD y false = true →
        (w.getD (x + (2 - 1)) []).getD (y + (2 - 1)) false = false) ∧
      (∀ x y, (w.getD x []).getD y false = true →
        ((circle_window 2).getD x []).getD y false = true) :=
  C7_annulus_containment 1 2 (by decide) (by decide)

/-! ## Claims about the tile kernels -/

/-- C2: the tile kernel writes a reducer result at exactly the cells
strictly inside the halo border (anywhere else the `np.empty_like`
output keeps its uninitialized contents), and after the `map_overlap`
trim the returned array has the tile's interior shape, each cell holding
the reducer of its gathered neighborhood. -/
theorem C2_tile_kernel_interior (tile : Mat FVal) (kernel : Mat Bool)
    (func : List FVal → FVal) (junk : ℕ → ℕ → FVal) (r c rq cq i j : ℕ)
    (hin : max ((kernel.rows - 1) / 2) (kernel.rows / 2) ≤ r ∧
      r < tile.rows - max ((kernel.rows - 1) / 2) (kernel.rows / 2) ∧
      max ((kernel.cols - 1) / 2) (kernel.cols / 2) ≤ c ∧
      c < tile.cols - max ((kernel.cols - 1) / 2) (kernel.cols / 2))
    (hout : ¬ (max ((kernel.rows - 1) / 2) (kernel.rows / 2) ≤ rq ∧
      rq < tile.rows - max ((kernel.rows - 1) / 2) (kernel.rows / 2) ∧
      max ((kernel.cols - 1) / 2) (kernel.cols / 2) ≤ cq ∧
      cq < tile.cols - max ((kernel.cols - 1) / 2) (kernel.cols / 2)))
    (hi : i < tile.rows - 2 * max ((kernel.rows - 1) / 2) (kernel.rows / 2))
    (hj : j < tile.cols - 2 * max ((kernel.cols - 1) / 2) (kernel.cols / 2)) :
    (tile_kernel tile kernel func junk).rows =
      tile.rows - 2 * max ((kernel.rows - 1) / 2) (kernel.rows / 2) ∧
    (tile_kernel tile kernel func junk).cols =
      tile.cols - 2 * max ((kernel.cols - 1) / 2) (kernel.cols / 2) ∧
    (focal_chunk tile kernel func junk).get r c =
      func (kernel_values tile kernel r c) ∧
    (focal_chunk tile kernel func junk).get rq cq = junk rq cq ∧
    (tile_kernel tile kernel func junk).get i j =
      func (kernel_values tile kernel
        (i + max ((kernel.rows - 1) / 2) (kernel.rows / 2))
        (j + max ((kernel.cols - 1) / 2) (kernel.cols / 2))) := by
  refine ⟨rfl, rfl, ?_, ?_, ?_⟩
  · exact if_pos hin
  · exact if_neg hout
  · show (focal_chunk tile kernel func junk).get
      (i + max ((kernel.rows - 1) / 2) (kernel.rows / 2))
      (j + max ((kernel.cols - 1) / 2) (kernel.cols / 2)) = _
    exact if_pos (by omega)

/-- Witness for `C2_tile_kernel_interior`: a 4×4 padded tile with a 3×3
all-true footprint and the sum reducer; interior cell `(1,1)`, halo cell
`(0,0)`, trimmed output cell `(0,0)`. -/
theorem C2_tile_kernel_interior_witness :
    (tile_kernel (Mat.mk 4 4 (fun r c => some ((r * 4 + c : ℕ) : ℚ)))
      (Mat.mk 3 3 (fun _ _ => true)) agg_nan_sum (fun _ _ => none)).rows =
      4 - 2 * max ((3 - 1) / 2) (3 / 2) ∧
    (tile_kernel (Mat.mk 4 4 (fun r c => some ((r * 4 + c : ℕ) : ℚ)))
      (Mat.mk 3 3 (fun _ _ => true)) agg_nan_sum (fun _ _ => none)).cols =
      4 - 2 * max ((3 - 1) / 2) (3 / 2) ∧
    (focal_chunk (Mat.mk 4 4 (fun r c => some ((r * 4 + c : ℕ) : ℚ)))
      (Mat.mk 3 3 (fun _ _ => true)) agg_nan_sum (fun _ _ => none)).get 1 1 =
      agg_nan_sum (kernel_values
        (Mat.mk 4 4 (fun r c => some ((r * 4 + c : ℕ) : ℚ)))
        (Mat.mk 3 3 (fun _ _ => true)) 1 1) ∧
    (focal_chunk (Mat.mk 4 4 (fun r c => some ((r * 4 + c : ℕ) : ℚ)))
      (Mat.mk 3 3 (fun _ _ => true)) agg_nan_sum (fun _ _ => none)).get 0 0 =
      (fun _ _ => (none : FVal)) 0 0 ∧
    (tile_kernel (Mat.mk 4 4 (fun r c => some ((r * 4 + c : ℕ) : ℚ)))
      (Mat.mk 3 3 (fun _ _ => true)) agg_nan_sum (fun _ _ => none)).get 0 0 =
      agg_nan_sum (kernel_values
        (Mat.mk 4 4 (fun r c => some ((r * 4 + c : ℕ) : ℚ)))
        (Mat.mk 3 3 (fun _ _ => true))
        (0 + max ((3 - 1) / 2) (3 / 2)) (0 + max ((3 - 1) / 2) (3 / 2))) :=
  C2_tile_kernel_interior
    (Mat.mk 4 4 (fun r c => some ((r * 4 + c : ℕ) : ℚ)))
    (Mat.mk 3 3 (fun _ _ => true)) agg_nan_sum (fun _ _ => none)
    1 1 0 0 0 0 (by decide) (by decide) (by decide) (by decide)

/-- The skipping fold of `_correlate2d_chunk` equals the sum of per-
position contributions where a masked (NaN) source cell contributes
exactly zero. -/
theorem corr_foldl_sum (chunk : Mat FVal) (kernel : Mat ℚ) (r c : ℕ) :
    ∀ (l : List (ℕ × ℕ)) (init : ℚ),
      l.foldl (corr_step chunk kernel r c) init =
        init + (l.map (corr_term chunk kernel r c)).sum := by
  intro l
  induction l with
  | nil => intro init; simp
  | cons a t ih =>
      intro init
      rw [List.foldl_cons, List.map_cons, List.sum_cons, ih]
      unfold corr_step corr_term
      cases chunk.get (r - (kernel.rows - 1) / 2 + a.1)
          (c - (kernel.cols - 1) / 2 + a.2) with
      | none => simp
      | some val => ring

/-- C8: at every interior cell the null-aware correlation kernel
produces `some` of the sum over kernel positions of
`weight × source value`, with masked (NaN) source positions contributing
exactly zero — the result is never NaN-poisoned. -/
theorem C8_correlate_masked_zero (chunk : Mat FVal) (kernel : Mat ℚ)
    (junk : ℕ → ℕ → FVal) (r c : ℕ)
    (hin : max ((kernel.rows - 1) / 2) (kernel.rows / 2) ≤ r ∧
      r < chunk.rows - max ((kernel.rows - 1) / 2) (kernel.rows / 2) ∧
      max ((kernel.cols - 1) / 2) (kernel.cols / 2) ≤ c ∧
      c < chunk.cols - max ((kernel.cols - 1) / 2) (kernel.cols / 2)) :
    (correlate2d_chunk chunk kernel junk).get r c =
      some (((kernel_positions kernel.rows kernel.cols).map
        (corr_term chunk kernel r c)).sum) ∧
    ((correlate2d_chunk chunk kernel junk).get r c).isSome = true := by
  have hcell : (correlate2d_chunk chunk kernel junk).get r c =
      some (correlate_cell chunk kernel r c) := if_pos hin
  rw [hcell]
  constructor
  · rw [correlate_cell, corr_foldl_sum]
    norm_num
  · rfl

/-- Witness for `C8_correlate_masked_zero`: a 3×3 padded tile whose
center row is NaN, correlated with a 3×3 kernel of ones at the interior
cell `(1,1)`. -/
theorem C8_correlate_masked_zero_witness :
    (correlate2d_chunk
      (Mat.mk 3 3 (fun r c => if r = 1 then none else some ((r * 3 + c : ℕ) : ℚ)))
      (Mat.mk 3 3 (fun _ _ => 1)) (fun _ _ => none)).get 1 1 =
      some (((kernel_positions 3 3).map
        (corr_term
          (Mat.mk 3 3 (fun r c => if r = 1 then none else some ((r * 3 + c : ℕ) : ℚ)))
          (Mat.mk 3 3 (fun _ _ => 1)) 1 1)).sum) ∧
    ((correlate2d_chunk
      (Mat.mk 3 3 (fun r c => if r = 1 then none else some ((r * 3 + c : ℕ) : ℚ)))
      (Mat.mk 3 3 (fun _ _ => 1)) (fun _ _ => none)).get 1 1).isSome = true :=
  C8_correlate_masked_zero
    (Mat.mk 3 3 (fun r c => if r = 1 then none else some ((r * 3 + c : ℕ) : ℚ)))
    (Mat.mk 3 3 (fun _ _ => 1)) (fun _ _ => none) 1 1 (by decide)

/-! ## Claims about the raster-level orchestrators -/

theorem upd_same {α : Type} (f : ℕ → α) (i : ℕ) (v : α) : upd f i v i = v := by
  simp [upd]

theorem upd_ne {α : Type} (f : ℕ → α) (i : ℕ) (v : α) (j : ℕ) (hj : j ≠ i) :
    upd f i v j = f j := by
  simp [upd, hj]

/-- A NaN-free 2-D kernel passes `check_kernel`. -/
theorem check_kernel_ok (k : KArr) (h2d : kernel_is2d k = true)
    (hnan : k.entries.all (fun row => row.all (fun v => v.isSome)) = true) :
    check_kernel k = .ok () := by
  have hany : k.entries.any (fun row => row.any (fun v => v.isNone)) = false := by
    rw [List.any_eq_false]
    intro row hrow
    rw [List.any_eq_true]
    rintro ⟨v, hv, hn⟩
    have hs := (List.all_eq_true.mp ((List.all_eq_true.mp hnan) row hrow)) v hv
    cases v with
    | none => simp at hs
    | some q => simp at hn
  simp [check_kernel, h2d, hany]

/-- C6: for every grid, edge mode and constant value, `convolve` with a
2-D NaN-free kernel equals `correlate` with the kernel mirrored on both
axes (180° rotation), exactly. -/
theorem C6_convolve_correlate_duality (h : Heap) (raster : Raster)
    (k : KArr) (mode : String) (cval : ℚ) (h2d : kernel_is2d k = true)
    (hnan : k.entries.all (fun row => row.all (fun v => v.isSome)) = true) :
    convolve h raster k mode cval = correlate h raster (rot180 k) mode cval := by
  unfold convolve
  rw [check_kernel_ok k h2d hnan]

/-- Witness for `C6_convolve_correlate_duality`: a concrete 2×2 integer
kernel on the example raster. -/
theorem C6_convolve_correlate_duality_witness :
    convolve example_heap example_raster
        ⟨Dtype.intT, [[some 1, some 2], [some 3, some 4]]⟩ "constant" 0 =
      correlate example_heap example_raster
        (rot180 ⟨Dtype.intT, [[some 1, some 2], [some 3, some 4]]⟩)
        "constant" 0 :=
  C6_convolve_correlate_duality example_heap example_raster
    ⟨Dtype.intT, [[some 1, some 2], [some 3, some 4]]⟩ "constant" 0
    (by decide) (by decide)

/-- C5 evaluation at the failing input: `focal` with the float-forcing
statistic `mean` on an unmasked integer raster returns a grid that keeps
the integer dtype — the float band results produced inside the stat
dispatch are cast back by the band assignment into the integer container
— while the masked integer raster does keep the floating dtype. -/
theorem C5_focal_dtype_eval :
    (focal id id example_heap example_raster "mean"
        (.single (.intV 1)) none).toOption.map
      (fun p => (p.1.dmem p.2.dataRef).dtype) = some Dtype.intT ∧
    (focal id id example_heap example_masked_raster "mean"
        (.single (.intV 1)) none).toOption.map
      (fun p => (p.1.dmem p.2.dataRef).dtype) = some Dtype.floatT := by
  constructor <;> rfl

/-- The copy–compute–write pattern leaves the input raster's slots
untouched and returns fresh references. -/
theorem run_op_preserves (h : Heap) (r : Raster)
    (F : DataArr → MaskArr → Except String DataArr) (hok : r.okIn h) :
    preserves_input h r (run_op h r F) := by
  intro h' out hres
  have hd : r.dataRef ≠ h.next := Nat.ne_of_lt hok.1
  have hm : r.maskRef ≠ h.next + 1 := by
    have := hok.2
    omega
  unfold run_op at hres
  cases hF : F ((raster_copy h r).1.dmem (raster_copy h r).2.dataRef)
      ((raster_copy h r).1.mmem r.maskRef) with
  | error e =>
      rw [hF] at hres
      exact absurd hres (by simp)
  | ok d =>
      rw [hF] at hres
      simp only [Except.ok.injEq, Prod.mk.injEq] at hres
      obtain ⟨hh, hout⟩ := hres
      subst hh
      subst hout
      refine ⟨?_, ?_, ?_, ?_⟩
      · show upd (upd h.dmem h.next (h.dmem r.dataRef)) h.next d r.dataRef =
          h.dmem r.dataRef
        rw [upd_ne _ _ _ _ hd, upd_ne _ _ _ _ hd]
      · show upd h.mmem (h.next + 1) (h.mmem r.maskRef) r.maskRef =
          h.mmem r.maskRef
        rw [upd_ne _ _ _ _ hm]
      · exact fun hc => hd hc.symm
      · exact fun hc => hm hc.symm

theorem raster_copy_fst_dmem (h : Heap) (r : Raster) :
    (raster_copy h r).1.dmem = upd h.dmem h.next (h.dmem r.dataRef) := rfl

theorem raster_copy_fst_mmem (h : Heap) (r : Raster) :
    (raster_copy h r).1.mmem = upd h.mmem (h.next + 1) (h.mmem r.maskRef) := rfl

theorem raster_copy_fst_next (h : Heap) (r : Raster) :
    (raster_copy h r).1.next = h.next + 2 := rfl

theorem raster_copy_snd (h : Heap) (r : Raster) :
    (raster_copy h r).2 = ⟨h.next, h.next + 1, r.nullValue⟩ := rfl

theorem writeData_dmem (h : Heap) (i : ℕ) (d : DataArr) :
    (h.writeData i d).dmem = upd h.dmem i d := rfl

theorem writeData_mmem (h : Heap) (i : ℕ) (d : DataArr) :
    (h.writeData i d).mmem = h.mmem := rfl

theorem writeData_next (h : Heap) (i : ℕ) (d : DataArr) :
    (h.writeData i d).next = h.next := rfl

/-- The copy–compute–write pattern run twice from the same input raster
produces outputs with identical contents. -/
theorem run_op_repeats (h : Heap) (r : Raster)
    (F : DataArr → MaskArr → Except String DataArr) (hok : r.okIn h) :
    repeats_same (fun hh => run_op hh r F) h := by
  intro h1 out1 hres
  have hd : r.dataRef ≠ h.next := Nat.ne_of_lt hok.1
  have hm : r.maskRef ≠ h.next + 1 := by
    have := hok.2
    omega
  have hA : (raster_copy h r).1.dmem (raster_copy h r).2.dataRef =
      h.dmem r.dataRef := upd_same _ _ _
  have hB : (raster_copy h r).1.mmem r.maskRef = h.mmem r.maskRef :=
    upd_ne _ _ _ _ hm
  simp only at hres
  unfold run_op at hres
  rw [hA, hB] at hres
  cases hF : F (h.dmem r.dataRef) (h.mmem r.maskRef) with
  | error e =>
      rw [hF] at hres
      exact absurd hres (by simp)
  | ok d =>
      rw [hF] at hres
      simp only [Except.ok.injEq, Prod.mk.injEq] at hres
      obtain ⟨hh1, hout1⟩ := hres
      subst hh1
      subst hout1
      have hd1 : r.dataRef ≠ h.next + 2 := by
        have := hok.1
        omega
      have hm1 : r.maskRef ≠ h.next + 2 + 1 := by
        have := hok.2
        omega
      have hm2 : r.maskRef ≠ h.next + 3 := by
        have := hok.2
        omega
      refine ⟨(raster_copy ((raster_copy h r).1.writeData
          (raster_copy h r).2.dataRef d) r).1.writeData
          (raster_copy ((raster_copy h r).1.writeData
            (raster_copy h r).2.dataRef d) r).2.dataRef d,
        (raster_copy ((raster_copy h r).1.writeData
          (raster_copy h r).2.dataRef d) r).2, ?_, ?_, ?_, ?_⟩
      · show run_op _ r F = _
        have hA1 : (raster_copy ((raster_copy h r).1.writeData
              (raster_copy h r).2.dataRef d) r).1.dmem
            (raster_copy ((raster_copy h r).1.writeData
              (raster_copy h r).2.dataRef d) r).2.dataRef =
            h.dmem r.dataRef := by
          simp [raster_copy_fst_dmem, raster_copy_snd, writeData_dmem,
            writeData_next, raster_copy_fst_next, upd, hd, hm, hd1, hm1, hm2]
        have hB1 : (raster_copy ((raster_copy h r).1.writeData
              (raster_copy h r).2.dataRef d) r).1.mmem r.maskRef =
            h.mmem r.maskRef := by
          simp [raster_copy_fst_mmem, raster_copy_snd, writeData_mmem,
            writeData_next, raster_copy_fst_next, upd, hd, hm, hd1, hm1, hm2]
        unfold run_op
        rw [hA1, hB1, hF]
      · simp [raster_copy_fst_dmem, raster_copy_snd, writeData_dmem,
          writeData_next, raster_copy_fst_next, upd, hd, hm, hd1, hm1, hm2]
      · simp [raster_copy_fst_mmem, raster_copy_snd, writeData_mmem,
          writeData_next, raster_copy_fst_next, upd, hd, hm, hd1, hm1, hm2]
      · rfl

/-- With a valid statistic and a well-formed window spec, `focal` is the
copy–compute–write pattern over its pure pipeline. -/
theorem focal_eq_run_op (sqrt log : ℚ → ℚ) (h : Heap) (r : Raster)
    (ft : String) (worr : FocalSpec) (ht : Option PyNum)
    (hft : ft ∈ FOCAL_STATS) (window : List (List Bool))
    (hw : get_focal_window worr ht = .ok window) :
    focal sqrt log h r ft worr ht =
      run_op h r (fun data mask =>
        focal_apply sqrt log data mask r.masked ft window) := by
  unfold focal
  rw [if_neg (not_not_intro hft), hw]

/-- C10: `focal`, `correlate` and `convolve` never touch the input
raster's payload or mask slots, return rasters with fresh references,
and a second run on the unchanged input produces a result with the same
contents. -/
theorem C10_operations_pure (sqrt log : ℚ → ℚ) (h : Heap) (r : Raster)
    (ft : String) (worr : FocalSpec) (ht : Option PyNum) (k : KArr)
    (mode : String) (cval : ℚ) (hok : r.okIn h) :
    preserves_input h r (focal sqrt log h r ft worr ht) ∧
    repeats_same (fun hh => focal sqrt log hh r ft worr ht) h ∧
    preserves_input h r (correlate h r k mode cval) ∧
    repeats_same (fun hh => correlate hh r k mode cval) h ∧
    preserves_input h r (convolve h r k mode cval) ∧
    repeats_same (fun hh => convolve hh r k mode cval) h := by
  have vac : ∀ (g : Heap → Except String (Heap × Raster)) (e : String),
      (∀ hh, g hh = .error e) →
      preserves_input h r (g h) ∧ repeats_same g h := by
    intro g e hg
    constructor
    · intro h' out hres
      rw [hg h] at hres
      exact absurd hres (by simp)
    · intro h1 out1 hres
      rw [hg h] at hres
      exact absurd hres (by simp)
  have good : ∀ (g : Heap → Except String (Heap × Raster))
      (F : DataArr → MaskArr → Except String DataArr),
      (∀ hh, g hh = run_op hh r F) →
      preserves_input h r (g h) ∧ repeats_same g h := by
    intro g F hg
    constructor
    · rw [hg h]
      exact run_op_preserves h r F hok
    · have hgf : g = fun hh => run_op hh r F := funext hg
      rw [hgf]
      exact run_op_repeats h r F hok
  have hfocal : preserves_input h r (focal sqrt log h r ft worr ht) ∧
      repeats_same (fun hh => focal sqrt log hh r ft worr ht) h := by
    by_cases hft : ft ∈ FOCAL_STATS
    · cases hw : get_focal_window worr ht with
      | error e =>
          exact vac (fun hh => focal sqrt log hh r ft worr ht) e (fun hh => by
            simp only [focal]
            rw [if_neg (not_not_intro hft), hw])
      | ok window =>
          exact good (fun hh => focal sqrt log hh r ft worr ht)
            (fun data mask =>
              focal_apply sqrt log data mask r.masked ft window)
            (fun hh =>
              focal_eq_run_op sqrt log hh r ft worr ht hft window hw)
    · exact vac (fun hh => focal sqrt log hh r ft worr ht)
        "Unknown focal operation" (fun hh => by
        simp only [focal]
        rw [if_pos hft])
  have hcorr : preserves_input h r (correlate h r k mode cval) ∧
      repeats_same (fun hh => correlate hh r k mode cval) h := by
    cases hck : check_kernel k with
    | error e =>
        exact vac (fun hh => correlate hh r k mode cval) e (fun hh => by
          simp only [correlate]
          rw [hck])
    | ok u =>
        cases u
        exact good (fun hh => correlate hh r k mode cval)
          (fun data mask => correlate_apply data mask r.masked k mode cval)
          (fun hh => by
            simp only [correlate]
            rw [hck])
  have hconv : preserves_input h r (convolve h r k mode cval) ∧
      repeats_same (fun hh => convolve hh r k mode cval) h := by
    cases hck : check_kernel k with
    | error e =>
        exact vac (fun hh => convolve hh r k mode cval) e (fun hh => by
          simp only [convolve]
          rw [hck])
    | ok u =>
        cases u
        cases hck2 : check_kernel (rot180 k) with
        | error e2 =>
            exact vac (fun hh => convolve hh r k mode cval) e2 (fun hh => by
              simp only [convolve, correlate]
              rw [hck, hck2])
        | ok u2 =>
            cases u2
            exact good (fun hh => convolve hh r k mode cval)
              (fun data mask =>
                correlate_apply data mask r.masked (rot180 k) mode cval)
              (fun hh => by
                simp only [convolve, correlate]
                rw [hck, hck2])
  exact ⟨hfocal.1, hfocal.2, hcorr.1, hcorr.2, hconv.1, hconv.2⟩

/-- Witness for `C10_operations_pure`: the example heap and raster with
the `mean` statistic, a radius-1 window, and a constant-mode 1×1
kernel. -/
theorem C10_operations_pure_witness :
    preserves_input example_heap example_raster
      (focal id id example_heap example_raster "mean" (.single (.intV 1)) none) ∧
    repeats_same (fun hh =>
      focal id id hh example_raster "mean" (.single (.intV 1)) none)
      example_heap ∧
    preserves_input example_heap example_raster
      (correlate example_heap example_raster ⟨Dtype.intT, [[some 1]]⟩
        "constant" 0) ∧
    repeats_same (fun hh =>
      correlate hh example_raster ⟨Dtype.intT, [[some 1]]⟩ "constant" 0)
      example_heap ∧
    preserves_input example_heap example_raster
      (convolve example_heap example_raster ⟨Dtype.intT, [[some 1]]⟩
        "constant" 0) ∧
    repeats_same (fun hh =>
      convolve hh example_raster ⟨Dtype.intT, [[some 1]]⟩ "constant" 0)
      example_heap :=
  C10_operations_pure id id example_heap example_raster "mean"
    (.single (.intV 1)) none ⟨Dtype.intT, [[some 1]]⟩ "constant" 0
    ⟨by decide, by decide⟩

end RasterTools
